import Mathlib

/-!
Verification of the realtime audio session core of `ai-chat-app`
(`src/client/src/hooks/useAudioStream.tsx` and the transcript consumer
`addMessage` in `src/client/src/hooks/useChatStream.tsx`).

The hook's cross-callback mutable refs become a state record `Sess`; each
inbound websocket message, timer firing or captured audio frame becomes an
`Event`; the single dispatch in `ws.onmessage` (plus the worklet frame
handler and the two timer callbacks) becomes the step function `step`,
which returns the successor state together with the outbound websocket
messages (`Msg`) and the transcript events (`TEvt`) handed to
`onAddMessage` during that step.  Timers are modelled by armed-flags: a
`graceFire`/`fallbackFire` event is a potential firing and is a no-op when
the corresponding timer is not armed, which matches `clearTimeout`
semantics.  The playback queue and the `disconnect` teardown are modelled
by their own state types further down.
-/

namespace AiChat

/-- Direction/role of a chat transcript entry. -/
inductive Role where
  | user
  | assistant
deriving Repr, DecidableEq

/-- One call of the `onAddMessage` callback: the argument object built by
`useAudioStream` (role, content, isStreaming, optional messageId, optional
isUpdate; absent optional fields are the JS falsy defaults). -/
structure TEvt where
  role : Role
  content : String
  streaming : Bool
  messageId : Option String
  isUpdate : Bool
deriving Repr, DecidableEq

/-- Outbound websocket messages sent by the hook during a session.
`append n` is an `input_audio_buffer.append` carrying a frame of `n`
samples. -/
inductive Msg where
  | append (n : Nat)
  | commit
  | respCreate
  | respCancel
deriving Repr, DecidableEq

/-- Inbound events dispatched by the hook while a session is active:
captured audio frames from the worklet, inbound websocket control
messages, and the two timer callbacks. -/
inductive Event where
  | frame (n : Nat)
  | respCreated
  | respCancelled
  | respDone
  | speechStarted
  | speechStopped
  | graceFire
  | fallbackFire
  | errEvent (code : Option String) (emsg : Option String)
  | asstDelta (d : String)
  | userDelta (d : String)
deriving Repr, DecidableEq

/-- Commit at least 100ms of audio (24kHz = 2400 samples). -/
def MIN_COMMIT_SAMPLES : Nat := 2400

/-- The cross-callback mutable refs of `useAudioStream` that the realtime
event handlers read and write, as one record.  Timer refs are modelled by
their armed-ness; `nextId` mints fresh message ids (the source uses
`Date.now().toString()`); `uiError` is `state.error`; `connectRejected`
records that the `reject` of the pending connect promise was invoked. -/
structure Sess where
  hasUncommittedAudio : Bool := false
  uncommittedSamples : Nat := 0
  responseInProgress : Bool := false
  speechStopTimeoutArmed : Bool := false
  pendingCreateTimeoutArmed : Bool := false
  currentStreamingMessageId : Option String := none
  currentStreamingContent : String := ""
  userSpeechMessageId : Option String := none
  userSpeechBuffer : String := ""
  nextId : Nat := 0
  uiError : Option String := none
  connectRejected : Bool := false
deriving Repr, DecidableEq

/-- Result of one handler invocation: successor state, outbound websocket
messages sent during the handler, transcript events emitted during the
handler (each list in emission order). -/
structure StepOut where
  st : Sess
  msgs : List Msg
  evts : List TEvt
deriving Repr, DecidableEq

/-- Error code the hook treats as a benign commit rejection. -/
def COMMIT_EMPTY_CODE : String := "input_audio_buffer_commit_empty"

/-- Error code the hook treats as a benign duplicate-response rejection. -/
def ACTIVE_RESPONSE_CODE : String := "conversation_already_has_active_response"

/-- `message.error?.message || 'Unknown error'` (JS `||` treats the empty
string and an absent field as falsy). -/
def errText : Option String → String
  | some t => if t = "" then "Unknown error" else t
  | none => "Unknown error"

/-- The `error`-typed branch of the `ws.onmessage` handler: the two benign
codes short-circuit (first resetting the commit tracking refs, second a
pure no-op); any other code sets the user-visible error, clears the
response-in-progress and dirty flags, and rejects the pending connect. -/
def handleError (code : Option String) (emsg : Option String) (s : Sess) : Sess :=
  if code = some COMMIT_EMPTY_CODE then
    { s with hasUncommittedAudio := false, uncommittedSamples := 0 }
  else if code = some ACTIVE_RESPONSE_CODE then
    s
  else
    { s with uiError := some ("Session error: " ++ errText emsg),
             responseInProgress := false,
             hasUncommittedAudio := false,
             connectRejected := true }

/-- One event-handler invocation of the hook, translated branch by branch
from `useAudioStream.tsx`. -/
def step (s : Sess) : Event → StepOut
  | .frame n =>
      ⟨{ s with hasUncommittedAudio := true, uncommittedSamples := s.uncommittedSamples + n },
       [.append n], []⟩
  | .respCreated =>
      ⟨{ s with responseInProgress := true, pendingCreateTimeoutArmed := false }, [], []⟩
  | .respCancelled =>
      ⟨{ s with responseInProgress := false }, [], []⟩
  | .respDone =>
      let evts :=
        match s.currentStreamingMessageId with
        | some i => [⟨.assistant, s.currentStreamingContent, false, some i, true⟩]
        | none => []
      ⟨{ s with responseInProgress := false,
                currentStreamingMessageId := none,
                currentStreamingContent := "" }, [], evts⟩
  | .speechStarted =>
      ⟨{ s with userSpeechMessageId := none, userSpeechBuffer := "",
                speechStopTimeoutArmed := false,
                pendingCreateTimeoutArmed := false,
                uncommittedSamples := 0 }, [], []⟩
  | .speechStopped =>
      let evts : List TEvt :=
        if s.userSpeechBuffer ≠ "" then [⟨.user, s.userSpeechBuffer, false, none, false⟩] else []
      let msgs : List Msg := if s.responseInProgress then [.respCancel] else []
      ⟨{ s with speechStopTimeoutArmed := true,
                userSpeechMessageId := none, userSpeechBuffer := "" }, msgs, evts⟩
  | .graceFire =>
      if s.speechStopTimeoutArmed then
        if s.hasUncommittedAudio ∧ MIN_COMMIT_SAMPLES ≤ s.uncommittedSamples then
          ⟨{ s with speechStopTimeoutArmed := false,
                    hasUncommittedAudio := false,
                    uncommittedSamples := 0,
                    pendingCreateTimeoutArmed :=
                      if s.responseInProgress then s.pendingCreateTimeoutArmed else true },
           [.commit], []⟩
        else
          ⟨{ s with speechStopTimeoutArmed := false }, [], []⟩
      else ⟨s, [], []⟩
  | .fallbackFire =>
      if s.pendingCreateTimeoutArmed then
        if s.responseInProgress then
          ⟨{ s with pendingCreateTimeoutArmed := false }, [], []⟩
        else
          ⟨{ s with pendingCreateTimeoutArmed := false, responseInProgress := true },
           [.respCreate], []⟩
      else ⟨s, [], []⟩
  | .errEvent code emsg =>
      ⟨handleError code emsg s, [], []⟩
  | .asstDelta d =>
      if d = "" then ⟨s, [], []⟩
      else
        let c := s.currentStreamingContent ++ d
        match s.currentStreamingMessageId with
        | none =>
            let i := toString s.nextId
            ⟨{ s with currentStreamingContent := c,
                      currentStreamingMessageId := some i,
                      nextId := s.nextId + 1 },
             [], [⟨.assistant, c, true, some i, false⟩]⟩
        | some i =>
            ⟨{ s with currentStreamingContent := c },
             [], [⟨.assistant, c, true, some i, true⟩]⟩
  | .userDelta d =>
      if d = "" then ⟨s, [], []⟩
      else
        let c := s.userSpeechBuffer ++ d
        match s.userSpeechMessageId with
        | none =>
            let i := toString s.nextId
            ⟨{ s with userSpeechBuffer := c,
                      userSpeechMessageId := some i,
                      nextId := s.nextId + 1 },
             [], [⟨.user, c, true, some i, false⟩]⟩
        | some i =>
            ⟨{ s with userSpeechBuffer := c },
             [], [⟨.user, c, true, some i, true⟩]⟩

/-- Initial value of every ref, as declared by the `useRef` initialisers. -/
def init : Sess := {}

/-- Run the machine over a list of events. -/
def runSt (s : Sess) : List Event → Sess
  | [] => s
  | e :: es => runSt (step s e).st es

/-- Concatenated outbound websocket messages of a run, in wire order. -/
def msgTrace (s : Sess) : List Event → List Msg
  | [] => []
  | e :: es => (step s e).msgs ++ msgTrace (step s e).st es

/-- Concatenated transcript (`onAddMessage`) events of a run. -/
def evtTrace (s : Sess) : List Event → List TEvt
  | [] => []
  | e :: es => (step s e).evts ++ evtTrace (step s e).st es

/-- An event is a fatal (non-benign) inbound error. -/
def Event.isFatalErr : Event → Bool
  | .errEvent code _ =>
      !(code == some COMMIT_EMPTY_CODE || code == some ACTIVE_RESPONSE_CODE)
  | _ => false

/-- A run with no fatal inbound error events. -/
def FatalFree (es : List Event) : Prop := ∀ e ∈ es, e.isFatalErr = false

/-- `b` extends `a`: `a` is an initial segment of `b`. -/
def strExt (a b : String) : Prop := ∃ t, b = a ++ t

/-- Running accumulations of a delta list onto a base buffer: the full
text carried by each successive streaming update. -/
def accumFrom (c : String) : List String → List String
  | [] => []
  | d :: ds => (c ++ d) :: accumFrom (c ++ d) ds

/-- The assistant-side streaming (`streaming=true`) transcript events of a
trace. -/
def asstStream (l : List TEvt) : List TEvt :=
  l.filter fun t => t.role == Role.assistant && t.streaming

/-- The user-side streaming (`streaming=true`) transcript events of a
trace. -/
def userStream (l : List TEvt) : List TEvt :=
  l.filter fun t => t.role == Role.user && t.streaming

/-- The non-empty assistant transcript deltas of an event list (the hook
skips falsy, i.e. empty, deltas). -/
def asstDeltas : List Event → List String :=
  List.filterMap fun e =>
    match e with
    | .asstDelta d => if d = "" then none else some d
    | _ => none

/-- The non-empty user transcript deltas of an event list. -/
def userDeltas : List Event → List String :=
  List.filterMap fun e =>
    match e with
    | .userDelta d => if d = "" then none else some d
    | _ => none

/-- A chat transcript record of `useChatStream` (`Message` there; the
timestamp models the `Date`). -/
structure ChatMessage where
  id : String
  role : Role
  content : String
  timestamp : Nat
  isStreaming : Option Bool
deriving Repr, DecidableEq

/-- The optional third argument of `addMessage` in `useChatStream`; absent
fields are the JS falsy defaults. -/
structure AddOpts where
  isStreaming : Option Bool
  messageId : Option String
  isUpdate : Bool
deriving Repr, DecidableEq

/-- JS `content.trim()`: strip leading and trailing whitespace.  (Embedded
directly over the character list so that it evaluates in the kernel.) -/
def trimStr (s : String) : String :=
  ⟨(((s.data.dropWhile Char.isWhitespace).reverse.dropWhile Char.isWhitespace).reverse)⟩

/-- `addMessage` from `useChatStream.tsx`: with `isUpdate` it rewrites the
record whose id matches in place; otherwise it appends a new record whose
id is the given one or a fresh `Date.now().toString()` (`now` here) — note
the JS `||`, under which an empty-string id also falls back to the fresh
one. -/
def addMessage (content : String) (role : Role) (opts : AddOpts) (now : Nat)
    (msgs : List ChatMessage) : List ChatMessage :=
  let messageId :=
    match opts.messageId with
    | some mid => if mid = "" then toString now else mid
    | none => toString now
  if opts.isUpdate then
    msgs.map fun m =>
      if m.id = messageId then
        { m with content := trimStr content, isStreaming := opts.isStreaming }
      else m
  else
    msgs ++ [{ id := messageId, role := role, content := trimStr content,
               timestamp := now, isStreaming := opts.isStreaming }]

/-- The `onAddMessage` wiring in `App.tsx`: each hook emission is passed to
`addMessage` with its content, role and options verbatim. -/
def applyTEvt (t : TEvt) (now : Nat) (msgs : List ChatMessage) : List ChatMessage :=
  addMessage t.content t.role ⟨some t.streaming, t.messageId, t.isUpdate⟩ now msgs

/-- State of the playback machinery: the pending chunk queue
(`audioQueueRef`), the drain-loop-active flag (`isPlayingAudioRef`) and
the chunk currently being played by the drain loop, if any.  Chunks are
identified by a `Nat`. -/
structure PlayQ where
  audioQueue : List Nat
  isPlayingAudio : Bool
  currentChunk : Option Nat
deriving Repr, DecidableEq

/-- Events of the playback machinery: `addAudioToQueue` enqueuing a
decoded chunk, and the `onended` callback of the currently playing source
firing. -/
inductive PQEvent where
  | enqueue (c : Nat)
  | ended
deriving Repr, DecidableEq

/-- One event of the playback machinery, from `addAudioToQueue` and
`processAudioQueue`: enqueue pushes and invokes the drain loop, which
returns at once if already active, else starts playing the queue head;
`onended` makes the drain loop play the next queued chunk or exit.  The
second component is the chunk that begins playing during the event, if
any. -/
def pqStep (s : PlayQ) : PQEvent → PlayQ × Option Nat
  | .enqueue c =>
      let q := s.audioQueue ++ [c]
      if s.isPlayingAudio then ({ s with audioQueue := q }, none)
      else
        match q with
        | [] => ({ s with audioQueue := q }, none)
        | c0 :: rest => (⟨rest, true, some c0⟩, some c0)
  | .ended =>
      match s.currentChunk with
      | none => (s, none)
      | some _ =>
          match s.audioQueue with
          | [] => (⟨[], false, none⟩, none)
          | c0 :: rest => (⟨rest, true, some c0⟩, some c0)

/-- Initial playback state. -/
def pqInit : PlayQ := ⟨[], false, none⟩

/-- Run the playback machine. -/
def pqRun (s : PlayQ) : List PQEvent → PlayQ
  | [] => s
  | e :: es => pqRun (pqStep s e).1 es

/-- The chunks that begin playing during a run, in order. -/
def pqStarts (s : PlayQ) : List PQEvent → List Nat
  | [] => []
  | e :: es => (pqStep s e).2.toList ++ pqStarts (pqStep s e).1 es

/-- The chunks enqueued during a run, in order. -/
def pqEnqueues : List PQEvent → List Nat :=
  List.filterMap fun e =>
    match e with
    | .enqueue c => some c
    | .ended => none

/-- Structural invariant of the playback machinery: an idle drain loop
leaves no queued and no current chunk, and an active one is playing some
chunk. -/
def PQInv (s : PlayQ) : Prop :=
  (s.isPlayingAudio = false → s.audioQueue = [] ∧ s.currentChunk = none) ∧
  (s.isPlayingAudio = true → s.currentChunk ≠ none)

/-- The `AudioStreamState` React state of the hook (`audioLevel`, a float
in the source, is only ever written back to `0` by `disconnect`, and is
modelled discretely). -/
structure AudioStreamState where
  isConnected : Bool := false
  isInCall : Bool := false
  audioLevel : Nat := 0
  error : Option String := none
  sessionReady : Bool := false
  isPlayingResponse : Bool := false
  isReceivingResponse : Bool := false
deriving Repr, DecidableEq

/-- Every mutable ref of `useAudioStream` together with its React state:
the resource handles (`wsRef`, `mediaStreamRef`, `audioContextRef`,
`audioWorkletNodeRef`, `animationFrameRef`) as optional opaque handles,
the timer refs as armed-flags, and the scheduler/transcript refs.  This is
the state that `disconnect` tears down. -/
structure HookState where
  ws : Option Nat := none
  mediaStream : Option Nat := none
  audioContext : Option Nat := none
  audioWorkletNode : Option Nat := none
  animationFrame : Option Nat := none
  sessionReady : Bool := false
  conversationItemCreated : Bool := false
  isInCallActive : Bool := false
  audioResponseBuffer : String := ""
  currentStreamingMessageId : Option String := none
  currentStreamingContent : String := ""
  userSpeechBuffer : String := ""
  userSpeechMessageId : Option String := none
  audioQueue : List Nat := []
  isPlayingAudio : Bool := false
  hasUncommittedAudio : Bool := false
  responseInProgress : Bool := false
  uncommittedSamples : Nat := 0
  speechStopTimeoutArmed : Bool := false
  pendingCreateTimeoutArmed : Bool := false
  lastCommitAt : Nat := 0
  ui : AudioStreamState := {}
deriving Repr, DecidableEq

/-- `disconnect` from `useAudioStream.tsx`, line by line: every
dereference in the source is null-guarded, so the function is total
(never throws).  It cancels the animation frame but never nulls
`animationFrameRef` (source lines 542-544), closes and nulls the
connection, media stream, worklet and audio context, clears both timers,
resets the scheduler and transcript refs and the React state — and leaves
`audioQueueRef` and `isPlayingAudioRef` untouched. -/
def disconnect (s : HookState) : HookState :=
  { s with ws := none, mediaStream := none, audioWorkletNode := none,
           audioContext := none,
           speechStopTimeoutArmed := false, pendingCreateTimeoutArmed := false,
           sessionReady := false, conversationItemCreated := false,
           isInCallActive := false,
           audioResponseBuffer := "", currentStreamingMessageId := none,
           currentStreamingContent := "", userSpeechBuffer := "",
           userSpeechMessageId := none,
           hasUncommittedAudio := false, responseInProgress := false,
           uncommittedSamples := 0, lastCommitAt := 0,
           ui := {} }

/-- A `buffer-commit` is only ever sent from the grace-window callback, and
only when the timer was armed, the dirty flag was set and the counter was
at least `MIN_COMMIT_SAMPLES` at that moment. -/
theorem commit_only_at_grace (s : Sess) (e : Event) (h : Msg.commit ∈ (step s e).msgs) :
    e = .graceFire ∧ s.speechStopTimeoutArmed = true ∧
      s.hasUncommittedAudio = true ∧ MIN_COMMIT_SAMPLES ≤ s.uncommittedSamples := by
  cases e with
  | frame n => simp [step] at h
  | respCreated => simp [step] at h
  | respCancelled => simp [step] at h
  | respDone => simp [step] at h
  | speechStarted => simp [step] at h
  | speechStopped =>
      simp only [step] at h
      split at h <;> simp at h
  | graceFire =>
      simp only [step] at h
      split at h
      · split at h
        · rename_i h1 h2
          exact ⟨rfl, h1, by simpa using h2.1, h2.2⟩
        · simp at h
      · simp at h
  | fallbackFire =>
      simp only [step] at h
      split at h
      · split at h <;> simp at h
      · simp at h
  | errEvent c m => simp [step] at h
  | asstDelta d =>
      simp only [step] at h
      split at h
      · simp at h
      · split at h <;> simp at h
  | userDelta d =>
      simp only [step] at h
      split at h
      · simp at h
      · split at h <;> simp at h

/-- When the grace timer fires armed with the dirty flag set and enough
samples, exactly one commit is sent. -/
theorem grace_commit_sent (s : Sess) (h1 : s.speechStopTimeoutArmed = true)
    (h2 : s.hasUncommittedAudio = true)
    (h3 : MIN_COMMIT_SAMPLES ≤ s.uncommittedSamples) :
    (step s .graceFire).msgs = [Msg.commit] := by
  simp [step, h1, h2, h3]

/-- In runs without fatal error events, a positive uncommitted-sample
counter implies the dirty flag: every handler that clears the dirty flag
except the fatal-error one also zeroes the counter, and frames set both. -/
theorem dirty_of_pos_samples (s : Sess) (es : List Event) (hff : FatalFree es)
    (hinv : 0 < s.uncommittedSamples → s.hasUncommittedAudio = true)
    (hpos : 0 < (runSt s es).uncommittedSamples) :
    (runSt s es).hasUncommittedAudio = true := by
  induction es generalizing s with
  | nil => exact hinv hpos
  | cons e es ih =>
      have hfe : e.isFatalErr = false := hff e (List.mem_cons_self _ _)
      refine ih (step s e).st (fun x hx => hff x (List.mem_cons_of_mem _ hx)) ?_ hpos
      cases e with
      | frame n => simp [step]
      | respCreated => simpa [step] using hinv
      | respCancelled => simpa [step] using hinv
      | respDone => simpa [step] using hinv
      | speechStarted => simp [step]
      | speechStopped => simpa [step] using hinv
      | graceFire =>
          simp only [step]
          split
          · split
            · simp
            · simpa using hinv
          · simpa using hinv
      | fallbackFire =>
          simp only [step]
          split
          · split
            · simpa using hinv
            · simpa using hinv
          · simpa using hinv
      | errEvent c m =>
          simp only [Event.isFatalErr, Bool.not_eq_false', Bool.or_eq_true, beq_iff_eq] at hfe
          simp only [step, handleError]
          rcases hfe with hc | hc
          · simp [hc]
          · rcases eq_or_ne c (some COMMIT_EMPTY_CODE) with h | h
            · simp [h]
            · simp [hc, h, COMMIT_EMPTY_CODE, ACTIVE_RESPONSE_CODE]
              intro hp
              exact hinv hp
      | asstDelta d =>
          simp only [step]
          split
          · simpa using hinv
          · split <;> simpa using hinv
      | userDelta d =>
          simp only [step]
          split
          · simpa using hinv
          · split <;> simpa using hinv

/-- Claim C1 (amended): a buffer-commit is sent by the grace-window
callback alone, and exactly when the dirty flag is set and the
uncommitted-sample counter is at least 2400 at the moment of sending — in
particular a grace window that expires with fewer than 2400 accumulated
samples never produces a commit; and in every run from the initial state
without fatal error events (the fatal-error handler clears the dirty flag
without zeroing the counter), a commit at grace expiry is sent if and only
if the counter is at least 2400. -/
theorem c1_commit_iff_dirty_and_min_samples :
    (∀ (s : Sess) (e : Event), Msg.commit ∈ (step s e).msgs →
        e = .graceFire ∧ s.speechStopTimeoutArmed = true ∧
        s.hasUncommittedAudio = true ∧ MIN_COMMIT_SAMPLES ≤ s.uncommittedSamples)
    ∧ (∀ s : Sess, s.speechStopTimeoutArmed = true → s.hasUncommittedAudio = true →
        MIN_COMMIT_SAMPLES ≤ s.uncommittedSamples → (step s .graceFire).msgs = [Msg.commit])
    ∧ (∀ es : List Event, FatalFree es →
        (runSt init es).speechStopTimeoutArmed = true →
        (Msg.commit ∈ (step (runSt init es) .graceFire).msgs ↔
          MIN_COMMIT_SAMPLES ≤ (runSt init es).uncommittedSamples)) := by
  refine ⟨commit_only_at_grace, grace_commit_sent, fun es hff harmed => ?_⟩
  constructor
  · intro h
    exact (commit_only_at_grace _ _ h).2.2.2
  · intro h
    have hdirty : (runSt init es).hasUncommittedAudio = true :=
      dirty_of_pos_samples init es hff (by simp [init])
        (lt_of_lt_of_le (by norm_num [MIN_COMMIT_SAMPLES]) h)
    rw [grace_commit_sent _ harmed hdirty h]
    exact List.mem_singleton.mpr rfl

/-- Witness for C1: instantiates the commit-sent direction at a concrete
armed state holding exactly 2400 samples, and the fatal-error-free iff at
the concrete run frame(2400); speech_stopped. -/
theorem c1_witness :
    (step { init with speechStopTimeoutArmed := true, hasUncommittedAudio := true,
                      uncommittedSamples := 2400 } .graceFire).msgs = [Msg.commit]
    ∧ (Msg.commit ∈ (step (runSt init [.frame 2400, .speechStopped]) .graceFire).msgs ↔
        MIN_COMMIT_SAMPLES ≤ (runSt init [.frame 2400, .speechStopped]).uncommittedSamples) :=
  ⟨c1_commit_iff_dirty_and_min_samples.2.1 _ rfl rfl (by decide),
   c1_commit_iff_dirty_and_min_samples.2.2 [.frame 2400, .speechStopped]
     (fun e he => by fin_cases he <;> rfl) (by decide)⟩

/-- Counterexample to C1 as stated: after frame(2400) and a fatal error
event, speech_stopped arms the grace window; at its expiry the counter
still holds 2400 samples (the fatal-error handler did not zero it), yet no
commit is sent, because that handler cleared the dirty flag.  So "commit
iff counter at least 2400 at the moment of sending" fails on the code. -/
theorem c1_counterexample :
    (runSt init [.frame 2400, .errEvent (some "boom") none,
        .speechStopped]).uncommittedSamples = 2400
    ∧ (runSt init [.frame 2400, .errEvent (some "boom") none,
        .speechStopped]).speechStopTimeoutArmed = true
    ∧ (step (runSt init [.frame 2400, .errEvent (some "boom") none,
        .speechStopped]) .graceFire).msgs = [] := by decide

/-- Claim C4 (amended): the speech_started handler clears the grace-window
and fallback-create timers, resets the user transcript cursor and zeroes
the uncommitted-sample counter, and emits nothing; the buffer dirty flag is
left unchanged (the source never resets `hasUncommittedAudioRef` there). -/
theorem c4_speech_started_resets :
    ∀ s : Sess,
      step s .speechStarted =
        ⟨{ s with userSpeechMessageId := none, userSpeechBuffer := "",
                  speechStopTimeoutArmed := false, pendingCreateTimeoutArmed := false,
                  uncommittedSamples := 0 }, [], []⟩
      ∧ (step s .speechStarted).st.hasUncommittedAudio = s.hasUncommittedAudio :=
  fun _ => ⟨rfl, rfl⟩

/-- Counterexample to C4 as stated: after one 960-sample frame the dirty
flag is set; speech_started zeroes the counter but leaves the dirty flag
true, contradicting "resets both the uncommitted-sample counter to zero
and the buffer dirty flag to false". -/
theorem c4_counterexample :
    (runSt init [.frame 960, .speechStarted]).uncommittedSamples = 0
    ∧ (runSt init [.frame 960, .speechStarted]).hasUncommittedAudio = true := by decide

theorem runSt_append (s : Sess) (es1 es2 : List Event) :
    runSt s (es1 ++ es2) = runSt (runSt s es1) es2 := by
  induction es1 generalizing s with
  | nil => rfl
  | cons e es ih => simpa [runSt] using ih (step s e).st

theorem msgTrace_append (s : Sess) (es1 es2 : List Event) :
    msgTrace s (es1 ++ es2) = msgTrace s es1 ++ msgTrace (runSt s es1) es2 := by
  induction es1 generalizing s with
  | nil => rfl
  | cons e es ih => simp [msgTrace, runSt, ih (step s e).st]

theorem msgTrace_nil (s : Sess) : msgTrace s [] = [] := rfl

theorem msgTrace_cons (s : Sess) (e : Event) (es : List Event) :
    msgTrace s (e :: es) = (step s e).msgs ++ msgTrace (step s e).st es := rfl

/-- A `response.create` is only ever sent from the fallback-timer
callback, and only when that timer was armed and no response was in
progress; the send itself sets the response-in-progress flag. -/
theorem create_only_at_fallback (s : Sess) (e : Event)
    (h : Msg.respCreate ∈ (step s e).msgs) :
    e = .fallbackFire ∧ s.pendingCreateTimeoutArmed = true ∧
      s.responseInProgress = false ∧ (step s e).st.responseInProgress = true := by
  cases e with
  | frame n => simp [step] at h
  | respCreated => simp [step] at h
  | respCancelled => simp [step] at h
  | respDone => simp [step] at h
  | speechStarted => simp [step] at h
  | speechStopped =>
      simp only [step] at h
      split at h <;> simp at h
  | graceFire =>
      simp only [step] at h
      split at h
      · split at h <;> simp at h
      · simp at h
  | fallbackFire =>
      simp only [step] at h
      split at h
      · rename_i h1
        split at h
        · simp at h
        · rename_i h2
          exact ⟨rfl, h1, by simpa using h2, by simp [step, h1, Bool.eq_false_iff.mpr h2]⟩
      · simp at h
  | errEvent c m => simp [step] at h
  | asstDelta d =>
      simp only [step] at h
      split at h
      · simp at h
      · split at h <;> simp at h
  | userDelta d =>
      simp only [step] at h
      split at h
      · simp at h
      · split at h <;> simp at h

/-- While no fallback timer is armed, no step can send `response.create`. -/
theorem no_create_of_unarmed (s : Sess) (e : Event)
    (h : s.pendingCreateTimeoutArmed = false) :
    Msg.respCreate ∉ (step s e).msgs := fun hc => by
  have := (create_only_at_fallback s e hc).2.1
  simp_all

/-- While no grace timer is armed, no step can send a commit. -/
theorem no_commit_of_unarmed (s : Sess) (e : Event)
    (h : s.speechStopTimeoutArmed = false) :
    Msg.commit ∉ (step s e).msgs := fun hc => by
  have := (commit_only_at_grace s e hc).2.1
  simp_all

/-- The response-in-progress flag survives any single event other than
`response.cancelled`, `response.done` and a fatal error. -/
theorem flag_step (s : Sess) (e : Event) (h : s.responseInProgress = true)
    (h1 : e ≠ .respCancelled) (h2 : e ≠ .respDone) (h3 : e.isFatalErr = false) :
    (step s e).st.responseInProgress = true := by
  cases e with
  | frame n => simpa [step] using h
  | respCreated => simp [step]
  | respCancelled => exact absurd rfl h1
  | respDone => exact absurd rfl h2
  | speechStarted => simpa [step] using h
  | speechStopped => simpa [step] using h
  | graceFire =>
      simp only [step]
      split
      · split
        · simpa using h
        · simpa using h
      · simpa using h
  | fallbackFire =>
      simp only [step]
      split
      · simp [h]
      · simpa using h
  | errEvent c m =>
      simp only [Event.isFatalErr, Bool.not_eq_false', Bool.or_eq_true, beq_iff_eq] at h3
      simp only [step, handleError]
      rcases h3 with hc | hc
      · simp [hc, h]
      · rcases eq_or_ne c (some COMMIT_EMPTY_CODE) with hc2 | hc2
        · simp [hc2, h]
        · simp [hc, hc2, COMMIT_EMPTY_CODE, ACTIVE_RESPONSE_CODE, h]
  | asstDelta d =>
      simp only [step]
      split
      · simpa using h
      · split <;> simpa using h
  | userDelta d =>
      simp only [step]
      split
      · simpa using h
      · split <;> simpa using h

/-- The response-in-progress flag survives any run of events that contains
no `response.cancelled`, no `response.done` and no fatal error. -/
theorem flag_persists (s : Sess) (es : List Event) (h : s.responseInProgress = true)
    (hes : ∀ e ∈ es, e ≠ .respCancelled ∧ e ≠ .respDone ∧ e.isFatalErr = false) :
    (runSt s es).responseInProgress = true := by
  induction es generalizing s with
  | nil => exact h
  | cons e es ih =>
      obtain ⟨h1, h2, h3⟩ := hes e (List.mem_cons_self _ _)
      exact ih (step s e).st (flag_step s e h h1 h2 h3)
        (fun x hx => hes x (List.mem_cons_of_mem _ hx))

/-- Claim C2 (amended): in every run from the initial state without fatal
error events, two outbound `response.create` sends are always separated by
an inbound `response.done` or `response.cancelled` — the fallback path is
guarded by the response-in-progress flag, which the create send and
`response.created` set and which, fatal errors aside, only
`response.done`/`response.cancelled` clear. -/
theorem c2_response_exclusivity (es1 es2 : List Event) (a b : Event)
    (hff : FatalFree (es1 ++ a :: es2 ++ [b]))
    (ha : Msg.respCreate ∈ (step (runSt init es1) a).msgs)
    (hb : Msg.respCreate ∈ (step (runSt init (es1 ++ a :: es2)) b).msgs) :
    Event.respDone ∈ es2 ∨ Event.respCancelled ∈ es2 := by
  by_contra hcon
  push_neg at hcon
  have hset : (step (runSt init es1) a).st.responseInProgress = true :=
    (create_only_at_fallback _ _ ha).2.2.2
  have hpre : (runSt init (es1 ++ a :: es2)).responseInProgress = true := by
    rw [runSt_append]
    show (runSt (runSt (runSt init es1) [a]) es2).responseInProgress = true
    refine flag_persists _ es2 hset (fun e he => ⟨?_, ?_, ?_⟩)
    · rintro rfl; exact hcon.2 he
    · rintro rfl; exact hcon.1 he
    · exact hff e (by simp [he])
  have := (create_only_at_fallback _ _ hb).2.2.1
  rw [hpre] at this
  simp at this

/-- Witness for C2: a run with a commit-then-fallback create, a completed
response, another commit-then-fallback create; the theorem instantiated
there forces `response.done` or `response.cancelled` between the creates,
and indeed `response.done` is present. -/
theorem c2_witness :
    Event.respDone ∈ ([.respDone, .frame 2400, .speechStopped, .graceFire] : List Event) ∧
    (Event.respDone ∈ ([.respDone, .frame 2400, .speechStopped, .graceFire] : List Event) ∨
      Event.respCancelled ∈ ([.respDone, .frame 2400, .speechStopped, .graceFire] : List Event)) :=
  ⟨by decide,
   c2_response_exclusivity
     [.frame 2400, .speechStopped, .graceFire]
     [.respDone, .frame 2400, .speechStopped, .graceFire]
     .fallbackFire .fallbackFire
     (fun e he => by fin_cases he <;> rfl) (by decide) (by decide)⟩

/-- Counterexample to C2 as stated: a fatal error event clears the
response-in-progress flag (source line 170), so a second fallback create
goes out although no `response.done`/`response.cancelled` ever arrived. -/
theorem c2_counterexample :
    msgTrace init [.frame 2400, .speechStopped, .graceFire, .fallbackFire,
        .errEvent (some "boom") none, .frame 2400, .speechStopped, .graceFire, .fallbackFire]
      = [.append 2400, .commit, .respCreate, .append 2400, .commit, .respCreate]
    ∧ Event.respDone ∉ ([.frame 2400, .speechStopped, .graceFire, .fallbackFire,
        .errEvent (some "boom") none, .frame 2400, .speechStopped, .graceFire,
        .fallbackFire] : List Event)
    ∧ Event.respCancelled ∉ ([.frame 2400, .speechStopped, .graceFire, .fallbackFire,
        .errEvent (some "boom") none, .frame 2400, .speechStopped, .graceFire,
        .fallbackFire] : List Event) := by decide

/-- Claim C3 (amended): whenever `speech_stopped` arrives while the
response-in-progress flag is still true, the handler sends exactly one
`response.cancel` at that moment, so the cancel precedes every outbound
message of the rest of the run — in particular any buffer-commit of the
new utterance, since commits are only ever sent at grace-window expiry,
which follows the `speech_stopped`.  (If a `response.done` or
`response.cancelled` cleared the flag between `speech_started` and
`speech_stopped`, no cancel is sent.) -/
theorem c3_barge_in_cancel :
    (∀ es1 es2 : List Event, (runSt init es1).responseInProgress = true →
        msgTrace init (es1 ++ .speechStopped :: es2)
          = msgTrace init es1 ++ Msg.respCancel ::
              msgTrace (step (runSt init es1) .speechStopped).st es2)
    ∧ (∀ (s : Sess) (e : Event), Msg.commit ∈ (step s e).msgs → e = .graceFire) := by
  constructor
  · intro es1 es2 h
    rw [msgTrace_append]
    have hstep : msgTrace (runSt init es1) (.speechStopped :: es2)
        = Msg.respCancel :: msgTrace (step (runSt init es1) .speechStopped).st es2 := by
      simp [msgTrace, step, h]
    rw [hstep]
  · intro s e h
    exact (commit_only_at_grace s e h).1

/-- Witness for C3: after `response.created` the flag is true; the
decomposition of the wire trace around the `speech_stopped` is exercised
concretely, and the commits-only-at-grace-expiry part is exercised at a
concrete armed state. -/
theorem c3_witness :
    (msgTrace init ([.respCreated] ++ .speechStopped :: [.frame 2400, .graceFire])
      = msgTrace init [.respCreated] ++ Msg.respCancel ::
          msgTrace (step (runSt init [.respCreated]) .speechStopped).st
            [.frame 2400, .graceFire])
    ∧ Event.graceFire = Event.graceFire :=
  ⟨c3_barge_in_cancel.1 [.respCreated] [.frame 2400, .graceFire] (by decide),
   c3_barge_in_cancel.2
     { init with speechStopTimeoutArmed := true, hasUncommittedAudio := true,
                 uncommittedSamples := 2400 } .graceFire (by decide)⟩

/-- Counterexample to C3 as stated: `speech_started` arrives while the
flag is true, but the response then completes on its own
(`response.done`) before `speech_stopped`; the new utterance's commit goes
out and no `response.cancel` is ever sent — the cancel is issued by the
`speech_stopped` handler, not the `speech_started` one. -/
theorem c3_counterexample :
    (runSt init [.respCreated]).responseInProgress = true
    ∧ msgTrace init [.respCreated, .speechStarted, .frame 2400, .respDone,
        .speechStopped, .graceFire] = [.append 2400, .commit] := by decide

/-- The pair "response in progress and fallback timer unarmed" survives
every event other than `response.cancelled`, `response.done` and a fatal
error. -/
theorem q_step (s : Sess) (e : Event) (h1 : s.responseInProgress = true)
    (h2 : s.pendingCreateTimeoutArmed = false)
    (e1 : e ≠ .respCancelled) (e2 : e ≠ .respDone) (e3 : e.isFatalErr = false) :
    (step s e).st.responseInProgress = true ∧
      (step s e).st.pendingCreateTimeoutArmed = false := by
  refine ⟨flag_step s e h1 e1 e2 e3, ?_⟩
  cases e with
  | frame n => simpa [step] using h2
  | respCreated => simp [step]
  | respCancelled => exact absurd rfl e1
  | respDone => exact absurd rfl e2
  | speechStarted => simp [step]
  | speechStopped => simpa [step] using h2
  | graceFire =>
      simp only [step]
      split
      · split
        · simp [h1, h2]
        · simpa using h2
      · simpa using h2
  | fallbackFire => simp [step, h2]
  | errEvent c m =>
      simp only [Event.isFatalErr, Bool.not_eq_false', Bool.or_eq_true, beq_iff_eq] at e3
      simp only [step, handleError]
      rcases e3 with hc | hc
      · simp [hc, h2]
      · rcases eq_or_ne c (some COMMIT_EMPTY_CODE) with hc2 | hc2
        · simp [hc2, h2]
        · simp [hc, hc2, COMMIT_EMPTY_CODE, ACTIVE_RESPONSE_CODE, h2]
  | asstDelta d =>
      simp only [step]
      split
      · simpa using h2
      · split <;> simpa using h2
  | userDelta d =>
      simp only [step]
      split
      · simpa using h2
      · split <;> simpa using h2

/-- Run form of `q_step`: while a response stays in progress and no
fatal error arrives, the fallback timer stays unarmed and no
`response.create` is sent. -/
theorem q_trace (s : Sess) (es : List Event) (h1 : s.responseInProgress = true)
    (h2 : s.pendingCreateTimeoutArmed = false)
    (hes : ∀ e ∈ es, e ≠ .respCancelled ∧ e ≠ .respDone ∧ e.isFatalErr = false) :
    Msg.respCreate ∉ msgTrace s es ∧
      (runSt s es).responseInProgress = true ∧
      (runSt s es).pendingCreateTimeoutArmed = false := by
  induction es generalizing s with
  | nil => exact ⟨by simp [msgTrace], h1, h2⟩
  | cons e es ih =>
      obtain ⟨e1, e2, e3⟩ := hes e (List.mem_cons_self _ _)
      obtain ⟨p1, p2⟩ := q_step s e h1 h2 e1 e2 e3
      obtain ⟨ihc, ihf, iha⟩ :=
        ih (step s e).st p1 p2 (fun x hx => hes x (List.mem_cons_of_mem _ hx))
      refine ⟨?_, ihf, iha⟩
      simp only [msgTrace, List.mem_append]
      rintro (hm | hm)
      · exact no_create_of_unarmed s e h2 hm
      · exact ihc hm

/-- Once both timers are unarmed, every event except `speech_stopped`
keeps them unarmed. -/
theorem r_step (s : Sess) (e : Event) (h1 : s.speechStopTimeoutArmed = false)
    (h2 : s.pendingCreateTimeoutArmed = false) (he : e ≠ .speechStopped) :
    (step s e).st.speechStopTimeoutArmed = false ∧
      (step s e).st.pendingCreateTimeoutArmed = false := by
  cases e with
  | frame n => simp [step, h1, h2]
  | respCreated => simp [step, h1]
  | respCancelled => simp [step, h1, h2]
  | respDone => simp [step, h1, h2]
  | speechStarted => simp [step]
  | speechStopped => exact absurd rfl he
  | graceFire => simp [step, h1, h2]
  | fallbackFire => simp [step, h1, h2]
  | errEvent c m =>
      simp only [step, handleError]
      split
      · simp [h1, h2]
      · split
        · exact ⟨h1, h2⟩
        · simp [h1, h2]
  | asstDelta d =>
      simp only [step]
      split
      · exact ⟨h1, h2⟩
      · split <;> simp [h1, h2]
  | userDelta d =>
      simp only [step]
      split
      · exact ⟨h1, h2⟩
      · split <;> simp [h1, h2]

/-- Run form of `r_step`: with both timers unarmed, no later event short
of a new `speech_stopped` can produce a `response.create`. -/
theorem r_trace (s : Sess) (es : List Event) (h1 : s.speechStopTimeoutArmed = false)
    (h2 : s.pendingCreateTimeoutArmed = false) (hes : ∀ e ∈ es, e ≠ .speechStopped) :
    Msg.respCreate ∉ msgTrace s es ∧
      (runSt s es).speechStopTimeoutArmed = false ∧
      (runSt s es).pendingCreateTimeoutArmed = false := by
  induction es generalizing s with
  | nil => exact ⟨by simp [msgTrace], h1, h2⟩
  | cons e es ih =>
      obtain ⟨p1, p2⟩ := r_step s e h1 h2 (hes e (List.mem_cons_self _ _))
      obtain ⟨ihc, ihg, iha⟩ :=
        ih (step s e).st p1 p2 (fun x hx => hes x (List.mem_cons_of_mem _ hx))
      refine ⟨?_, ihg, iha⟩
      simp only [msgTrace, List.mem_append]
      rintro (hm | hm)
      · exact no_create_of_unarmed s e h2 hm
      · exact ihc hm

/-- Single-step preservation of "response in progress implies fallback
timer unarmed"; it holds for every event. -/
theorem armed_inv_step (s : Sess) (e : Event)
    (h : s.responseInProgress = true → s.pendingCreateTimeoutArmed = false) :
    (step s e).st.responseInProgress = true →
      (step s e).st.pendingCreateTimeoutArmed = false := by
  cases e with
  | frame n => simpa [step] using h
  | respCreated => simp [step]
  | respCancelled => simp [step]
  | respDone => simp [step]
  | speechStarted => simp [step]
  | speechStopped => simpa [step] using h
  | graceFire =>
      simp only [step]
      split
      · split
        · intro hr
          simp only at hr ⊢
          simp [hr, h hr]
        · simpa using h
      · simpa using h
  | fallbackFire =>
      simp only [step]
      split
      · split <;> simp
      · simpa using h
  | errEvent c m =>
      simp only [step, handleError]
      split
      · simpa using h
      · split
        · exact h
        · simp
  | asstDelta d =>
      simp only [step]
      split
      · simpa using h
      · split <;> simpa using h
  | userDelta d =>
      simp only [step]
      split
      · simpa using h
      · split <;> simpa using h

/-- In every run from the initial state, an in-progress response implies
the fallback timer is unarmed: `response.created` and the fallback firing
both disarm it as they set the flag. -/
theorem armed_inv (es : List Event) :
    (runSt init es).responseInProgress = true →
      (runSt init es).pendingCreateTimeoutArmed = false := by
  have main : ∀ (es : List Event) (s : Sess),
      (s.responseInProgress = true → s.pendingCreateTimeoutArmed = false) →
      (runSt s es).responseInProgress = true →
        (runSt s es).pendingCreateTimeoutArmed = false := by
    intro es
    induction es with
    | nil => exact fun s h => h
    | cons e es ih => exact fun s h => ih (step s e).st (armed_inv_step s e h)
  exact main es init (by simp [init])

/-- When the grace timer fires while a response is in progress and the
fallback timer is unarmed, the step sends no `response.create` and leaves
both timers unarmed (the fallback-arming branch is skipped). -/
theorem grace_step_q (s : Sess) (h1 : s.responseInProgress = true)
    (h2 : s.pendingCreateTimeoutArmed = false) :
    Msg.respCreate ∉ (step s .graceFire).msgs ∧
      (step s .graceFire).st.speechStopTimeoutArmed = false ∧
      (step s .graceFire).st.pendingCreateTimeoutArmed = false := by
  refine ⟨no_create_of_unarmed s _ h2, ?_, ?_⟩
  · simp only [step]
    split
    · split
      · simp
      · simp
    · rename_i hg
      simpa using hg
  · simp only [step]
    split
    · split
      · simp [h1, h2]
      · simpa using h2
    · simpa using h2

/-- Claim C10 (amended): if `speech_stopped` arrives while the
response-in-progress flag is true (so a cancel is sent) and neither
`response.cancelled` nor `response.done` nor a fatal error event (which
also clears the flag) arrives before the grace window expires, then the
grace-expiry step does not arm the fallback timer, and no
`response.create` is sent at any point from the `speech_stopped` up to
the next `speech_stopped`, whatever other events arrive. -/
theorem c10_no_fallback_create (es1 es2 es3 : List Event)
    (h1 : (runSt init es1).responseInProgress = true)
    (h2 : ∀ e ∈ es2, e ≠ .respCancelled ∧ e ≠ .respDone ∧ e.isFatalErr = false)
    (h3 : ∀ e ∈ es3, e ≠ .speechStopped) :
    Msg.respCreate ∉
        msgTrace (runSt init es1) (.speechStopped :: es2 ++ .graceFire :: es3)
    ∧ (runSt (runSt init es1)
        (.speechStopped :: es2 ++ [.graceFire])).pendingCreateTimeoutArmed = false := by
  have ha1 : (runSt init es1).pendingCreateTimeoutArmed = false := armed_inv es1 h1
  have hstop := q_step (runSt init es1) .speechStopped h1 ha1
    (by simp) (by simp) (by simp [Event.isFatalErr])
  have hmsgs_stop : Msg.respCreate ∉ (step (runSt init es1) .speechStopped).msgs :=
    no_create_of_unarmed _ _ ha1
  obtain ⟨hq2c, hq2f, hq2a⟩ :=
    q_trace (step (runSt init es1) .speechStopped).st es2 hstop.1 hstop.2 h2
  have hg := grace_step_q (runSt (step (runSt init es1) .speechStopped).st es2) hq2f hq2a
  obtain ⟨hr3c, hr3g, hr3a⟩ :=
    r_trace (step (runSt (step (runSt init es1) .speechStopped).st es2) .graceFire).st
      es3 hg.2.1 hg.2.2 h3
  constructor
  · intro hc
    rw [show (Event.speechStopped :: es2 ++ Event.graceFire :: es3)
          = Event.speechStopped :: (es2 ++ Event.graceFire :: es3) from rfl,
        msgTrace_cons, msgTrace_append, msgTrace_cons] at hc
    simp only [List.mem_append] at hc
    rcases hc with hc | hc
    · exact hmsgs_stop hc
    rcases hc with hc | hc
    · exact hq2c hc
    rcases hc with hc | hc
    · exact hg.1 hc
    · exact hr3c hc
  · show (runSt (runSt init es1) (.speechStopped :: (es2 ++ [.graceFire]))).pendingCreateTimeoutArmed = false
    rw [runSt, runSt_append]
    simpa [runSt] using hg.2.2

/-- Witness for C10: concretely, after `response.created`, a
`speech_stopped` followed by a tail frame, the grace expiry and a stray
fallback firing and `response.done` produce no `response.create`, and the
fallback timer ends unarmed. -/
theorem c10_witness :
    Msg.respCreate ∉
        msgTrace (runSt init [.respCreated])
          (.speechStopped :: [.frame 2400] ++ .graceFire :: [.fallbackFire, .respDone])
    ∧ (runSt (runSt init [.respCreated])
        (.speechStopped :: [.frame 2400] ++ [.graceFire])).pendingCreateTimeoutArmed = false :=
  c10_no_fallback_create [.respCreated] [.frame 2400] [.fallbackFire, .respDone]
    (by decide)
    (fun e he => by fin_cases he; exact ⟨by decide, by decide, by decide⟩)
    (fun e he => by fin_cases he <;> decide)

/-- Counterexample to C10 as stated: a fatal error event between the
`speech_stopped` (which sent the cancel) and the grace expiry clears the
response-in-progress flag without any `response.cancelled`/`response.done`
arriving, so the commit at grace expiry does arm the fallback timer and a
fallback `response.create` goes out. -/
theorem c10_counterexample :
    msgTrace init [.respCreated, .frame 2400, .speechStopped,
        .errEvent (some "boom") none, .frame 2400, .graceFire, .fallbackFire]
      = [.append 2400, .respCancel, .append 2400, .commit, .respCreate]
    ∧ (runSt init [.respCreated, .frame 2400]).responseInProgress = true
    ∧ Event.respDone ∉ ([.respCreated, .frame 2400, .speechStopped,
        .errEvent (some "boom") none, .frame 2400, .graceFire, .fallbackFire] : List Event)
    ∧ Event.respCancelled ∉ ([.respCreated, .frame 2400, .speechStopped,
        .errEvent (some "boom") none, .frame 2400, .graceFire, .fallbackFire] : List Event)
    := by decide

theorem accumFrom_chain (c : String) (ds : List String) :
    List.Chain' strExt (c :: accumFrom c ds) := by
  induction ds generalizing c with
  | nil => simp [accumFrom]
  | cons d ds ih =>
      simp only [accumFrom]
      rw [List.chain'_cons]
      exact ⟨⟨d, rfl⟩, ih (c ++ d)⟩

theorem evtTrace_cons (s : Sess) (e : Event) (es : List Event) :
    evtTrace s (e :: es) = (step s e).evts ++ evtTrace (step s e).st es := rfl

theorem asstStream_nil : asstStream [] = [] := rfl

theorem userStream_nil : userStream [] = [] := rfl

theorem asstStream_append (l1 l2 : List TEvt) :
    asstStream (l1 ++ l2) = asstStream l1 ++ asstStream l2 :=
  List.filter_append _ _

theorem userStream_append (l1 l2 : List TEvt) :
    userStream (l1 ++ l2) = userStream l1 ++ userStream l2 :=
  List.filter_append _ _

theorem asstStream_user_evt (c : String) (b : Bool) (mid : Option String) (u : Bool)
    (l : List TEvt) : asstStream (⟨.user, c, b, mid, u⟩ :: l) = asstStream l := rfl

theorem asstStream_asst_nonstream (c : String) (mid : Option String) (u : Bool)
    (l : List TEvt) : asstStream (⟨.assistant, c, false, mid, u⟩ :: l) = asstStream l := rfl

theorem asstStream_asst_stream (c : String) (mid : Option String) (u : Bool)
    (l : List TEvt) :
    asstStream (⟨.assistant, c, true, mid, u⟩ :: l)
      = ⟨.assistant, c, true, mid, u⟩ :: asstStream l := rfl

theorem userStream_asst_evt (c : String) (b : Bool) (mid : Option String) (u : Bool)
    (l : List TEvt) : userStream (⟨.assistant, c, b, mid, u⟩ :: l) = userStream l := rfl

theorem userStream_user_nonstream (c : String) (mid : Option String) (u : Bool)
    (l : List TEvt) : userStream (⟨.user, c, false, mid, u⟩ :: l) = userStream l := rfl

theorem userStream_user_stream (c : String) (mid : Option String) (u : Bool)
    (l : List TEvt) :
    userStream (⟨.user, c, true, mid, u⟩ :: l)
      = ⟨.user, c, true, mid, u⟩ :: userStream l := rfl

/-- Every event other than `response.done` and an assistant delta emits no
assistant-side streaming transcript event and leaves the assistant cursor
(id and accumulated content) untouched — in particular the user-side
events `speech_started`, `speech_stopped` and user deltas do. -/
theorem asst_silent_step (s : Sess) (e : Event)
    (he1 : e ≠ .respDone) (he2 : ∀ d, e ≠ .asstDelta d) :
    asstStream (step s e).evts = [] ∧
    (step s e).st.currentStreamingMessageId = s.currentStreamingMessageId ∧
    (step s e).st.currentStreamingContent = s.currentStreamingContent := by
  cases e with
  | respDone => exact absurd rfl he1
  | asstDelta d => exact absurd rfl (he2 d)
  | frame n => simp [step, asstStream_nil]
  | respCreated => simp [step, asstStream_nil]
  | respCancelled => simp [step, asstStream_nil]
  | speechStarted => simp [step, asstStream_nil]
  | speechStopped =>
      simp only [step]
      refine ⟨?_, by trivial, by trivial⟩
      split
      · rw [asstStream_user_evt, asstStream_nil]
      · rw [asstStream_nil]
  | graceFire =>
      simp only [step]
      split
      · split <;> simp [asstStream_nil]
      · simp [asstStream_nil]
  | fallbackFire =>
      simp only [step]
      split
      · split <;> simp [asstStream_nil]
      · simp [asstStream_nil]
  | errEvent c m =>
      simp only [step, handleError]
      split
      · simp [asstStream_nil]
      · split <;> simp [asstStream_nil]
  | userDelta d =>
      simp only [step]
      split
      · simp [asstStream_nil]
      · split
        · refine ⟨?_, by trivial, by trivial⟩
          rw [asstStream_user_evt, asstStream_nil]
        · refine ⟨?_, by trivial, by trivial⟩
          rw [asstStream_user_evt, asstStream_nil]

/-- Every event other than `speech_started`, `speech_stopped` and a user
delta emits no user-side streaming transcript event and leaves the user
cursor (id and accumulated buffer) untouched — in particular
`response.done` (which emits a non-streaming assistant finalize) and
assistant deltas do. -/
theorem user_silent_step (s : Sess) (e : Event)
    (he1 : e ≠ .speechStarted) (he2 : e ≠ .speechStopped)
    (he3 : ∀ d, e ≠ .userDelta d) :
    userStream (step s e).evts = [] ∧
    (step s e).st.userSpeechMessageId = s.userSpeechMessageId ∧
    (step s e).st.userSpeechBuffer = s.userSpeechBuffer := by
  cases e with
  | speechStarted => exact absurd rfl he1
  | speechStopped => exact absurd rfl he2
  | userDelta d => exact absurd rfl (he3 d)
  | frame n => simp [step, userStream_nil]
  | respCreated => simp [step, userStream_nil]
  | respCancelled => simp [step, userStream_nil]
  | respDone =>
      simp only [step]
      refine ⟨?_, by trivial, by trivial⟩
      split
      · rw [userStream_asst_evt, userStream_nil]
      · rw [userStream_nil]
  | graceFire =>
      simp only [step]
      split
      · split <;> simp [userStream_nil]
      · simp [userStream_nil]
  | fallbackFire =>
      simp only [step]
      split
      · split <;> simp [userStream_nil]
      · simp [userStream_nil]
  | errEvent c m =>
      simp only [step, handleError]
      split
      · simp [userStream_nil]
      · split <;> simp [userStream_nil]
  | asstDelta d =>
      simp only [step]
      split
      · simp [userStream_nil]
      · split
        · refine ⟨?_, by trivial, by trivial⟩
          rw [userStream_asst_evt, userStream_nil]
        · refine ⟨?_, by trivial, by trivial⟩
          rw [userStream_asst_evt, userStream_nil]

/-- While the assistant cursor stays open (no `response.done` in the
window), the assistant-side streaming transcript events of a run are
exactly the running accumulations of the non-empty assistant deltas onto
the open buffer, all carrying the open cursor id as in-place updates —
whatever user-side events (deltas, `speech_started`, `speech_stopped`)
are interleaved. -/
theorem asst_stream_spec (s : Sess) (i : String) (es : List Event)
    (hi : s.currentStreamingMessageId = some i)
    (h1 : Event.respDone ∉ es) :
    asstStream (evtTrace s es)
      = (accumFrom s.currentStreamingContent (asstDeltas es)).map
          (fun c => ⟨.assistant, c, true, some i, true⟩) := by
  induction es generalizing s with
  | nil => simp [evtTrace, asstStream_nil, asstDeltas, accumFrom]
  | cons e es ih =>
      have h1' : Event.respDone ∉ es := fun h => h1 (List.mem_cons_of_mem _ h)
      have hne1 : e ≠ Event.respDone := fun h => h1 (h ▸ List.mem_cons_self _ _)
      cases e with
      | respDone => exact absurd rfl hne1
      | asstDelta d =>
          by_cases hd : d = ""
          · subst hd
            have key := ih (step s (.asstDelta "")).st hi h1'
            rw [evtTrace_cons]
            simpa [step, asstStream_nil, asstDeltas] using key
          · have iha :=
              ih { s with currentStreamingContent := s.currentStreamingContent ++ d }
                hi h1'
            simp only [hi, asstStream, asstDeltas] at iha
            rw [evtTrace_cons]
            simp [step, hd, hi, asstDeltas, asstStream, accumFrom, iha]
      | frame n =>
          obtain ⟨hev, hc1, hc2⟩ := asst_silent_step s (.frame n)
            (by simp) (fun d => by simp)
          have key := ih (step s (.frame n)).st (hc1.trans hi) h1'
          rw [hc2] at key
          rw [evtTrace_cons, asstStream_append, hev, List.nil_append]
          exact key
      | respCreated =>
          obtain ⟨hev, hc1, hc2⟩ := asst_silent_step s .respCreated
            (by simp) (fun d => by simp)
          have key := ih (step s .respCreated).st (hc1.trans hi) h1'
          rw [hc2] at key
          rw [evtTrace_cons, asstStream_append, hev, List.nil_append]
          exact key
      | respCancelled =>
          obtain ⟨hev, hc1, hc2⟩ := asst_silent_step s .respCancelled
            (by simp) (fun d => by simp)
          have key := ih (step s .respCancelled).st (hc1.trans hi) h1'
          rw [hc2] at key
          rw [evtTrace_cons, asstStream_append, hev, List.nil_append]
          exact key
      | speechStarted =>
          obtain ⟨hev, hc1, hc2⟩ := asst_silent_step s .speechStarted
            (by simp) (fun d => by simp)
          have key := ih (step s .speechStarted).st (hc1.trans hi) h1'
          rw [hc2] at key
          rw [evtTrace_cons, asstStream_append, hev, List.nil_append]
          exact key
      | speechStopped =>
          obtain ⟨hev, hc1, hc2⟩ := asst_silent_step s .speechStopped
            (by simp) (fun d => by simp)
          have key := ih (step s .speechStopped).st (hc1.trans hi) h1'
          rw [hc2] at key
          rw [evtTrace_cons, asstStream_append, hev, List.nil_append]
          exact key
      | graceFire =>
          obtain ⟨hev, hc1, hc2⟩ := asst_silent_step s .graceFire
            (by simp) (fun d => by simp)
          have key := ih (step s .graceFire).st (hc1.trans hi) h1'
          rw [hc2] at key
          rw [evtTrace_cons, asstStream_append, hev, List.nil_append]
          exact key
      | fallbackFire =>
          obtain ⟨hev, hc1, hc2⟩ := asst_silent_step s .fallbackFire
            (by simp) (fun d => by simp)
          have key := ih (step s .fallbackFire).st (hc1.trans hi) h1'
          rw [hc2] at key
          rw [evtTrace_cons, asstStream_append, hev, List.nil_append]
          exact key
      | errEvent c m =>
          obtain ⟨hev, hc1, hc2⟩ := asst_silent_step s (.errEvent c m)
            (by simp) (fun d => by simp)
          have key := ih (step s (.errEvent c m)).st (hc1.trans hi) h1'
          rw [hc2] at key
          rw [evtTrace_cons, asstStream_append, hev, List.nil_append]
          exact key
      | userDelta d =>
          obtain ⟨hev, hc1, hc2⟩ := asst_silent_step s (.userDelta d)
            (by simp) (fun x => by simp)
          have key := ih (step s (.userDelta d)).st (hc1.trans hi) h1'
          rw [hc2] at key
          rw [evtTrace_cons, asstStream_append, hev, List.nil_append]
          exact key

/-- While the user cursor stays open (no `speech_started` or
`speech_stopped` in the window), the user-side streaming transcript events
of a run are exactly the running accumulations of the non-empty user
deltas onto the open buffer, all carrying the open cursor id as in-place
updates — whatever assistant-side events (deltas, `response.done`) are
interleaved. -/
theorem user_stream_spec (s : Sess) (j : String) (es : List Event)
    (hj : s.userSpeechMessageId = some j)
    (h2 : Event.speechStarted ∉ es)
    (h3 : Event.speechStopped ∉ es) :
    userStream (evtTrace s es)
      = (accumFrom s.userSpeechBuffer (userDeltas es)).map
          (fun c => ⟨.user, c, true, some j, true⟩) := by
  induction es generalizing s with
  | nil => simp [evtTrace, userStream_nil, userDeltas, accumFrom]
  | cons e es ih =>
      have h2' : Event.speechStarted ∉ es := fun h => h2 (List.mem_cons_of_mem _ h)
      have h3' : Event.speechStopped ∉ es := fun h => h3 (List.mem_cons_of_mem _ h)
      have hne2 : e ≠ Event.speechStarted := fun h => h2 (h ▸ List.mem_cons_self _ _)
      have hne3 : e ≠ Event.speechStopped := fun h => h3 (h ▸ List.mem_cons_self _ _)
      cases e with
      | speechStarted => exact absurd rfl hne2
      | speechStopped => exact absurd rfl hne3
      | userDelta d =>
          by_cases hd : d = ""
          · subst hd
            have key := ih (step s (.userDelta "")).st hj h2' h3'
            rw [evtTrace_cons]
            simpa [step, userStream_nil, userDeltas] using key
          · have ihu :=
              ih { s with userSpeechBuffer := s.userSpeechBuffer ++ d }
                hj h2' h3'
            simp only [hj, userStream, userDeltas] at ihu
            rw [evtTrace_cons]
            simp [step, hd, hj, userDeltas, userStream, accumFrom, ihu]
      | frame n =>
          obtain ⟨hev, hc1, hc2⟩ := user_silent_step s (.frame n)
            (by simp) (by simp) (fun d => by simp)
          have key := ih (step s (.frame n)).st (hc1.trans hj) h2' h3'
          rw [hc2] at key
          rw [evtTrace_cons, userStream_append, hev, List.nil_append]
          exact key
      | respCreated =>
          obtain ⟨hev, hc1, hc2⟩ := user_silent_step s .respCreated
            (by simp) (by simp) (fun d => by simp)
          have key := ih (step s .respCreated).st (hc1.trans hj) h2' h3'
          rw [hc2] at key
          rw [evtTrace_cons, userStream_append, hev, List.nil_append]
          exact key
      | respCancelled =>
          obtain ⟨hev, hc1, hc2⟩ := user_silent_step s .respCancelled
            (by simp) (by simp) (fun d => by simp)
          have key := ih (step s .respCancelled).st (hc1.trans hj) h2' h3'
          rw [hc2] at key
          rw [evtTrace_cons, userStream_append, hev, List.nil_append]
          exact key
      | respDone =>
          obtain ⟨hev, hc1, hc2⟩ := user_silent_step s .respDone
            (by simp) (by simp) (fun d => by simp)
          have key := ih (step s .respDone).st (hc1.trans hj) h2' h3'
          rw [hc2] at key
          rw [evtTrace_cons, userStream_append, hev, List.nil_append]
          exact key
      | graceFire =>
          obtain ⟨hev, hc1, hc2⟩ := user_silent_step s .graceFire
            (by simp) (by simp) (fun d => by simp)
          have key := ih (step s .graceFire).st (hc1.trans hj) h2' h3'
          rw [hc2] at key
          rw [evtTrace_cons, userStream_append, hev, List.nil_append]
          exact key
      | fallbackFire =>
          obtain ⟨hev, hc1, hc2⟩ := user_silent_step s .fallbackFire
            (by simp) (by simp) (fun d => by simp)
          have key := ih (step s .fallbackFire).st (hc1.trans hj) h2' h3'
          rw [hc2] at key
          rw [evtTrace_cons, userStream_append, hev, List.nil_append]
          exact key
      | errEvent c m =>
          obtain ⟨hev, hc1, hc2⟩ := user_silent_step s (.errEvent c m)
            (by simp) (by simp) (fun d => by simp)
          have key := ih (step s (.errEvent c m)).st (hc1.trans hj) h2' h3'
          rw [hc2] at key
          rw [evtTrace_cons, userStream_append, hev, List.nil_append]
          exact key
      | asstDelta d =>
          obtain ⟨hev, hc1, hc2⟩ := user_silent_step s (.asstDelta d)
            (by simp) (by simp) (fun x => by simp)
          have key := ih (step s (.asstDelta d)).st (hc1.trans hj) h2' h3'
          rw [hc2] at key
          rw [evtTrace_cons, userStream_append, hev, List.nil_append]
          exact key

/-- Claim C5: for a single open message cursor of either direction, every
successive streaming "message updated" event carries the full accumulated
text (the running accumulation of that direction's non-empty deltas onto
the open buffer, addressed to the open cursor's id as an in-place update),
and the successive contents form a chain in which each event's content
extends the previous one, until that cursor's own finalisation — the
assistant cursor until `response.done` (user-side events, including
`speech_started`/`speech_stopped` finalisations, may be interleaved
freely), and the user cursor until `speech_started`/`speech_stopped`
(assistant-side events, including `response.done`, may be interleaved
freely). -/
theorem c5_transcript_monotone :
    (∀ (s : Sess) (i : String) (es : List Event),
        s.currentStreamingMessageId = some i →
        Event.respDone ∉ es →
        asstStream (evtTrace s es)
          = (accumFrom s.currentStreamingContent (asstDeltas es)).map
              (fun c => ⟨.assistant, c, true, some i, true⟩)
        ∧ List.Chain' strExt
            (s.currentStreamingContent :: (asstStream (evtTrace s es)).map TEvt.content))
    ∧ (∀ (s : Sess) (j : String) (es : List Event),
        s.userSpeechMessageId = some j →
        Event.speechStarted ∉ es →
        Event.speechStopped ∉ es →
        userStream (evtTrace s es)
          = (accumFrom s.userSpeechBuffer (userDeltas es)).map
              (fun c => ⟨.user, c, true, some j, true⟩)
        ∧ List.Chain' strExt
            (s.userSpeechBuffer :: (userStream (evtTrace s es)).map TEvt.content)) := by
  constructor
  · intro s i es hi h1
    have ha := asst_stream_spec s i es hi h1
    refine ⟨ha, ?_⟩
    rw [ha, List.map_map]
    have hid : (TEvt.content ∘ fun c =>
        (⟨.assistant, c, true, some i, true⟩ : TEvt)) = id := rfl
    rw [hid, List.map_id]
    exact accumFrom_chain s.currentStreamingContent (asstDeltas es)
  · intro s j es hj h2 h3
    have hu := user_stream_spec s j es hj h2 h3
    refine ⟨hu, ?_⟩
    rw [hu, List.map_map]
    have hid : (TEvt.content ∘ fun c =>
        (⟨.user, c, true, some j, true⟩ : TEvt)) = id := rfl
    rw [hid, List.map_id]
    exact accumFrom_chain s.userSpeechBuffer (userDeltas es)

/-- Witness for C5: the assistant part over a window containing a
`speech_stopped` and a user delta (the user cursor closing mid-window),
and the user part over a window containing a `response.done` — each open
cursor's updates accumulate undisturbed. -/
theorem c5_witness :
    asstStream (evtTrace
        { init with currentStreamingMessageId := some "1" }
        [.asstDelta "Hi", .speechStopped, .userDelta "Yo", .asstDelta " there"])
      = [⟨.assistant, "Hi", true, some "1", true⟩,
         ⟨.assistant, "Hi there", true, some "1", true⟩]
    ∧ userStream (evtTrace
        { init with userSpeechMessageId := some "2" }
        [.userDelta "a", .respDone, .userDelta "b"])
      = [⟨.user, "a", true, some "2", true⟩,
         ⟨.user, "ab", true, some "2", true⟩] := by
  constructor
  · rw [(c5_transcript_monotone.1 _ "1" _ rfl (by decide)).1]
    decide
  · rw [(c5_transcript_monotone.2 _ "2" _ rfl (by decide) (by decide)).1]
    decide

/-- Claim C6 (code bug, evaluated at the failing input): with the user
cursor open (id "7", buffer "hello there") and the corresponding streaming
chat record in the list, `speech_stopped` emits the finalize event WITHOUT
the cursor's message id and without the update flag (the source passes
only role/content/isStreaming at useAudioStream.tsx:275), so the consumer
`addMessage` appends a brand-new record and leaves the open streaming
record untouched — still streaming — instead of updating it in place; the
cursor itself is then closed (id and buffer cleared) as the claim says. -/
theorem c6_user_finalize_behavior :
    (step { init with
        userSpeechMessageId := some "7"
        userSpeechBuffer := "hello there" } .speechStopped).evts
      = [⟨.user, "hello there", false, none, false⟩]
    ∧ applyTEvt ⟨.user, "hello there", false, none, false⟩ 9
        [⟨"7", .user, "hello there", 5, some true⟩]
      = [⟨"7", .user, "hello there", 5, some true⟩,
         ⟨"9", .user, "hello there", 9, some false⟩]
    ∧ (step { init with
        userSpeechMessageId := some "7"
        userSpeechBuffer := "hello there" } .speechStopped).st.userSpeechMessageId = none
    ∧ (step { init with
        userSpeechMessageId := some "7"
        userSpeechBuffer := "hello there" } .speechStopped).st.userSpeechBuffer = "" := by
  decide

theorem pqEnqueues_cons_enq (c : Nat) (es : List PQEvent) :
    pqEnqueues (.enqueue c :: es) = c :: pqEnqueues es := rfl

theorem pqEnqueues_cons_end (es : List PQEvent) :
    pqEnqueues (.ended :: es) = pqEnqueues es := rfl

theorem pqStarts_cons (s : PlayQ) (e : PQEvent) (es : List PQEvent) :
    pqStarts s (e :: es) = (pqStep s e).2.toList ++ pqStarts (pqStep s e).1 es := rfl

theorem pqRun_cons (s : PlayQ) (e : PQEvent) (es : List PQEvent) :
    pqRun s (e :: es) = pqRun (pqStep s e).1 es := rfl

theorem pqStep_enq_idle (s : PlayQ) (c : Nat) (hp : s.isPlayingAudio = false)
    (hq : s.audioQueue = []) :
    pqStep s (.enqueue c) = (⟨[], true, some c⟩, some c) := by
  simp [pqStep, hp, hq]

theorem pqStep_enq_busy (s : PlayQ) (c : Nat) (hp : s.isPlayingAudio = true) :
    pqStep s (.enqueue c) = ({ s with audioQueue := s.audioQueue ++ [c] }, none) := by
  simp [pqStep, hp]

theorem pqStep_end_idle (s : PlayQ) (hc : s.currentChunk = none) :
    pqStep s .ended = (s, none) := by
  simp [pqStep, hc]

theorem pqStep_end_last (s : PlayQ) (c0 : Nat) (hc : s.currentChunk = some c0)
    (hq : s.audioQueue = []) :
    pqStep s .ended = (⟨[], false, none⟩, none) := by
  simp [pqStep, hc, hq]

theorem pqStep_end_next (s : PlayQ) (c0 c1 : Nat) (rest : List Nat)
    (hc : s.currentChunk = some c0) (hq : s.audioQueue = c1 :: rest) :
    pqStep s .ended = (⟨rest, true, some c1⟩, some c1) := by
  simp [pqStep, hc, hq]

theorem pq_inv_step (s : PlayQ) (e : PQEvent) (h : PQInv s) : PQInv (pqStep s e).1 := by
  obtain ⟨h1, h2⟩ := h
  cases e with
  | enqueue c =>
      rcases hp : s.isPlayingAudio with _ | _
      · obtain ⟨hq, _⟩ := h1 hp
        rw [pqStep_enq_idle s c hp hq]
        exact ⟨fun hf => by simp at hf, fun _ => by simp⟩
      · rw [pqStep_enq_busy s c hp]
        exact ⟨fun hf => by rw [hp] at hf; simp at hf, fun _ => h2 hp⟩
  | ended =>
      rcases hc : s.currentChunk with _ | c0
      · rw [pqStep_end_idle s hc]
        exact ⟨h1, h2⟩
      · rcases hq : s.audioQueue with _ | ⟨c1, rest⟩
        · rw [pqStep_end_last s c0 hc hq]
          exact ⟨fun _ => ⟨rfl, rfl⟩, fun hf => by simp at hf⟩
        · rw [pqStep_end_next s c0 c1 rest hc hq]
          exact ⟨fun hf => by simp at hf, fun _ => by simp⟩

theorem pq_trace_eq (s : PlayQ) (es : List PQEvent) (h : PQInv s) :
    s.audioQueue ++ pqEnqueues es = pqStarts s es ++ (pqRun s es).audioQueue := by
  induction es generalizing s with
  | nil => simp [pqEnqueues, pqStarts, pqRun]
  | cons e es ih =>
      have ihs := ih (pqStep s e).1 (pq_inv_step s e h)
      cases e with
      | enqueue c =>
          rw [pqEnqueues_cons_enq, pqStarts_cons, pqRun_cons]
          rcases hp : s.isPlayingAudio with _ | _
          · obtain ⟨hq, _⟩ := h.1 hp
            rw [pqStep_enq_idle s c hp hq] at ihs ⊢
            simp only [Option.toList] at ihs ⊢
            simpa [hq] using ihs
          · rw [pqStep_enq_busy s c hp] at ihs ⊢
            simpa using ihs
      | ended =>
          rw [pqEnqueues_cons_end, pqStarts_cons, pqRun_cons]
          rcases hc : s.currentChunk with _ | c0
          · rw [pqStep_end_idle s hc] at ihs ⊢
            simpa using ihs
          · rcases hq : s.audioQueue with _ | ⟨c1, rest⟩
            · rw [pqStep_end_last s c0 hc hq] at ihs ⊢
              simpa [hq] using ihs
            · rw [pqStep_end_next s c0 c1 rest hc hq] at ihs ⊢
              simp [ihs]

/-- Claim C7: chunks begin playing in exactly their enqueue order — the
started chunks followed by the still-queued ones reproduce the enqueue
sequence, so the start order is an initial segment of the enqueue order;
a chunk can begin playing only when nothing is mid-playback (the drain
loop was idle) or at the previous chunk's playback-end callback; and the
drain-loop invariant (idle means empty queue and nothing playing; active
means some chunk is playing — at most one loop) holds in every reachable
state. -/
theorem c7_playback_order :
    (∀ es : List PQEvent,
        pqEnqueues es = pqStarts pqInit es ++ (pqRun pqInit es).audioQueue)
    ∧ (∀ es : List PQEvent, pqStarts pqInit es <+: pqEnqueues es)
    ∧ (∀ (s : PlayQ) (e : PQEvent) (c : Nat), PQInv s → (pqStep s e).2 = some c →
        s.currentChunk = none ∨ e = .ended)
    ∧ (∀ es : List PQEvent, PQInv (pqRun pqInit es)) := by
  have hinit : PQInv pqInit := ⟨fun _ => ⟨rfl, rfl⟩, fun h => by simp [pqInit] at h⟩
  have htr : ∀ es : List PQEvent,
      pqEnqueues es = pqStarts pqInit es ++ (pqRun pqInit es).audioQueue := by
    intro es
    have := pq_trace_eq pqInit es hinit
    simpa [pqInit] using this
  have hreach : ∀ es : List PQEvent, PQInv (pqRun pqInit es) := by
    have main : ∀ (es : List PQEvent) (s : PlayQ), PQInv s → PQInv (pqRun s es) := by
      intro es
      induction es with
      | nil => exact fun s h => h
      | cons e es ih => exact fun s h => ih (pqStep s e).1 (pq_inv_step s e h)
    exact fun es => main es pqInit hinit
  refine ⟨htr, fun es => ⟨(pqRun pqInit es).audioQueue, (htr es).symm⟩, ?_, hreach⟩
  intro s e c hinv hout
  cases e with
  | enqueue d =>
      left
      rcases hp : s.isPlayingAudio with _ | _
      · exact (hinv.1 hp).2
      · simp [pqStep, hp] at hout
  | ended => right; rfl

/-- Witness for C7: the start-gating conjunct applied at a busy state with
one queued chunk and an `onended` event. -/
theorem c7_witness :
    ({ audioQueue := [7], isPlayingAudio := true, currentChunk := some 5 }
        : PlayQ).currentChunk = none ∨ PQEvent.ended = PQEvent.ended :=
  c7_playback_order.2.2.1 ⟨[7], true, some 5⟩ .ended 7
    ⟨fun hf => by simp at hf, fun _ => by simp⟩ (by decide)

/-- Claim C8: an inbound error with the commit-rejected-empty-buffer code
resets the dirty flag and the uncommitted-sample counter and changes
nothing else (no user-visible error, nothing emitted); one with the
duplicate-active-response code is a pure no-op; any other error-typed
event sets the user-visible session error text, clears the in-progress and
dirty flags, and rejects the pending connect. -/
theorem c8_error_taxonomy :
    (∀ (s : Sess) (m : Option String),
        step s (.errEvent (some COMMIT_EMPTY_CODE) m)
          = ⟨{ s with hasUncommittedAudio := false, uncommittedSamples := 0 }, [], []⟩)
    ∧ (∀ (s : Sess) (m : Option String),
        step s (.errEvent (some ACTIVE_RESPONSE_CODE) m) = ⟨s, [], []⟩)
    ∧ (∀ (s : Sess) (code m : Option String),
        code ≠ some COMMIT_EMPTY_CODE → code ≠ some ACTIVE_RESPONSE_CODE →
        step s (.errEvent code m)
          = ⟨{ s with uiError := some ("Session error: " ++ errText m),
                      responseInProgress := false,
                      hasUncommittedAudio := false,
                      connectRejected := true }, [], []⟩) := by
  refine ⟨fun s m => ?_, fun s m => ?_, fun s code m h1 h2 => ?_⟩
  · simp [step, handleError]
  · simp [step, handleError, COMMIT_EMPTY_CODE, ACTIVE_RESPONSE_CODE]
  · simp [step, handleError, h1, h2]

/-- Witness for C8: the fatal branch applied at a concrete unknown code. -/
theorem c8_witness :
    step init (.errEvent (some "boom") (some "oops"))
      = ⟨{ init with uiError := some ("Session error: " ++ errText (some "oops")),
                     responseInProgress := false,
                     hasUncommittedAudio := false,
                     connectRejected := true }, [], []⟩ :=
  c8_error_taxonomy.2.2 init (some "boom") (some "oops") (by decide) (by decide)

/-- Claim C9 (amended): `disconnect` is total (every dereference in the
source is null-guarded, so it never throws) and idempotent — composing it
with itself gives the same state; after it, the connection, media stream,
worklet, audio context and both timers are released and the scheduler,
transcript and React state are reset; but the animation-frame handle ref
is only cancelled, never nulled, and the playback queue and playing flag
are not touched. -/
theorem c9_disconnect_idempotent :
    ∀ s : HookState,
      disconnect (disconnect s) = disconnect s
      ∧ (disconnect s).ws = none
      ∧ (disconnect s).mediaStream = none
      ∧ (disconnect s).audioWorkletNode = none
      ∧ (disconnect s).audioContext = none
      ∧ (disconnect s).speechStopTimeoutArmed = false
      ∧ (disconnect s).pendingCreateTimeoutArmed = false
      ∧ (disconnect s).ui = {}
      ∧ (disconnect s).animationFrame = s.animationFrame
      ∧ (disconnect s).audioQueue = s.audioQueue
      ∧ (disconnect s).isPlayingAudio = s.isPlayingAudio :=
  fun _ => ⟨rfl, rfl, rfl, rfl, rfl, rfl, rfl, rfl, rfl, rfl, rfl⟩

/-- Counterexample to C9 as stated: starting from a state with a live
animation-frame handle, a queued playback chunk and an active drain loop,
`disconnect` leaves all three as they were — the second call does not
observe every resource reference null, and the result is not the
all-initial state. -/
theorem c9_counterexample :
    (disconnect { animationFrame := some 7, audioQueue := [3], isPlayingAudio := true }).animationFrame = some 7
    ∧ (disconnect { animationFrame := some 7, audioQueue := [3], isPlayingAudio := true }).audioQueue = [3]
    ∧ (disconnect { animationFrame := some 7, audioQueue := [3], isPlayingAudio := true }).isPlayingAudio = true
    ∧ disconnect { animationFrame := some 7, audioQueue := [3], isPlayingAudio := true } ≠ ({} : HookState) := by decide

end AiChat
